import Mathlib

/-!
Shallow embedding of the post-processing pipeline of `src/src/utils/detect.js`
(YOLOv8 segmentation demo).  JavaScript double arithmetic is modelled by exact
rationals; image dimensions and tensor shapes are naturals.  The three ONNX
sessions (`session.net`, `session.nms`, `session.mask`), the OpenCV matrix
operations, and the modules missing from the source tree (`renderBox.js` with
its color palette, `labels.json`) are external collaborators: they enter the
model as opaque function parameters (`selector`, `maskGen`) or parameters
(`numClass`), never as re-implemented code.  Everything else is translated
line by line from `detect.js`.
-/

/-- A box in `[x, y, w, h]` order, as the four-element JS arrays of
`detect.js`. -/
abbrev Box : Type := ℚ × ℚ × ℚ × ℚ

/-- One decoded detection record, as pushed onto `boxes` in `detectImage`
(lines 84-89).  The source stores `labels[label]` (a string from the external
`labels.json`) and a palette color from the external `renderBox.js`; the model
keeps the class index and drops the color, which no claim constrains. -/
structure Detection where
  label : ℕ
  probability : ℚ
  bounding : Box
  deriving DecidableEq

/-- Models `Math.max(...scores)` (line 60).  JS returns `-Infinity` on an
empty spread, which has no rational counterpart; the empty case is given the
junk value 0 and the development only evaluates `listMax` on nonempty lists. -/
def listMax : List ℚ → ℚ
  | [] => 0
  | a :: rest => rest.foldl max a

/-- Models `Array.prototype.indexOf` (line 61): index of the first occurrence.
JS returns `-1` when the element is absent; the model returns the length in
that case and is only used on elements that do occur. -/
def indexOfQ (x : ℚ) : List ℚ → ℕ
  | [] => 0
  | a :: rest => if a = x then 0 else indexOfQ x rest + 1

/-- The score slice `data.slice(4, 4 + numClass)` of a selected-detection row
(line 59).  As in JS, a row shorter than `4 + numClass` silently yields a
shorter slice. -/
def scoresOf (numClass : ℕ) (row : List ℚ) : List ℚ :=
  (row.drop 4).take numClass

/-- `overflowBoxes` (lines 194-200).  The source mutates the array in place,
so the clamped `box[0]` (resp. `box[1]`) is the one used when shrinking
`box[2]` (resp. `box[3]`); the sequential `let`s reproduce that. -/
def overflowBoxes (box : Box) (maxSize : ℚ) : Box :=
  let x := if box.1 ≥ 0 then box.1 else 0
  let y := if box.2.1 ≥ 0 then box.2.1 else 0
  let w := if x + box.2.2.1 ≤ maxSize then box.2.2.1 else maxSize - x
  let h := if y + box.2.2.2 ≤ maxSize then box.2.2.2 else maxSize - y
  (x, y, w, h)

/-- Box clipping as the spec words it (§4.2): clamp `x` and `y` to `≥ 0`, then
shrink `w` to `min(w, maxSize - x)` and `h` to `min(h, maxSize - y)`.  Kept
separate from `overflowBoxes` so that agreement between the two is a theorem,
not a definition. -/
def specClipBox (b : Box) (m : ℚ) : Box :=
  (max b.1 0, max b.2.1 0,
   min b.2.2.1 (m - max b.1 0), min b.2.2.2 (m - max b.2.1 0))

/-- The recentering step of the decode loop (lines 66-69):
`[cx - 0.5*w, cy - 0.5*h, w, h]` from the first four row entries. -/
def recenterBox (row : List ℚ) : Box :=
  (row.getD 0 0 - (1/2) * row.getD 2 0,
   row.getD 1 0 - (1/2) * row.getD 3 0,
   row.getD 2 0, row.getD 3 0)

/-- The upscale step of the decode loop (lines 76-79):
`[floor(x*xRatio), floor(y*yRatio), floor(w*xRatio), floor(h*yRatio)]`. -/
def scaleFloorBox (xRatio yRatio : ℚ) (b : Box) : Box :=
  ((⌊b.1 * xRatio⌋ : ℤ), (⌊b.2.1 * yRatio⌋ : ℤ),
   (⌊b.2.2.1 * xRatio⌋ : ℤ), (⌊b.2.2.2 * yRatio⌋ : ℤ))

/-- The box produced for one row by `detectImage` (lines 64-82): recenter,
clip against `maxSize`, upscale with floors, clip against `maxSize` again. -/
def decodeBox (maxSize xRatio yRatio : ℚ) (row : List ℚ) : Box :=
  overflowBoxes (scaleFloorBox xRatio yRatio (overflowBoxes (recenterBox row) maxSize)) maxSize

/-- The same double-clip formula with the clip written as the spec words it
(§4.4 plus §4.2), for the refinement statement of claim C1. -/
def decodeSpecBox (maxSize xRatio yRatio : ℚ) (row : List ℚ) : Box :=
  specClipBox (scaleFloorBox xRatio yRatio (specClipBox (recenterBox row) maxSize)) maxSize

/-- One iteration of the decode loop of `detectImage` (lines 56-89) as a pure
record: maximum score, first index attaining it, double-clipped box. -/
def decodeRow (numClass : ℕ) (maxSize xRatio yRatio : ℚ) (row : List ℚ) : Detection :=
  { label := indexOfQ (listMax (scoresOf numClass row)) (scoresOf numClass row)
    probability := listMax (scoresOf numClass row)
    bounding := decodeBox maxSize xRatio yRatio row }

/-- The `mask` tensor data built for `session.mask.run` (lines 91-97): the
first-clipped model-space box followed by the mask coefficients
`data.slice(4 + numClass)`. -/
def maskDetection (numClass : ℕ) (maxSize : ℚ) (row : List ℚ) : List ℚ :=
  let b := overflowBoxes (recenterBox row) maxSize
  [b.1, b.2.1, b.2.2.1, b.2.2.2] ++ row.drop (4 + numClass)

/-- The `maskConfig` tensor data (lines 98-108): `maxSize` and the upscaled
box.  The trailing RGBA entries come from the external palette module
(`renderBox.js`, not under `src/`) and are omitted; no claim constrains
them. -/
def maskConfig (numClass : ℕ) (maxSize xRatio yRatio : ℚ) (row : List ℚ) : List ℚ :=
  let b := decodeBox maxSize xRatio yRatio row
  [maxSize, b.1, b.2.1, b.2.2.1, b.2.2.2]

/-- The decode loop of `detectImage` (lines 56-117).  `maskGen` abstracts the
external `session.mask.run` call; the loop threads its overlay result into
the next iteration and collects the decoded detections in row order. -/
def runRows {α : Type} (numClass : ℕ) (maxSize xRatio yRatio : ℚ)
    (maskGen : List ℚ → List ℚ → α → α) :
    List (List ℚ) → α → List Detection × α
  | [], overlay => ([], overlay)
  | row :: rest, overlay =>
    let det := decodeRow numClass maxSize xRatio yRatio row
    let next := runRows numClass maxSize xRatio yRatio maskGen rest
      (maskGen (maskDetection numClass maxSize row)
        (maskConfig numClass maxSize xRatio yRatio row) overlay)
    (det :: next.1, next.2)

/-- Row `idx` of the flat selected tensor:
`selected.data.slice(idx * dims2, (idx + 1) * dims2)` (line 57). -/
def tensorRow (data : List ℚ) (width idx : ℕ) : List ℚ :=
  (data.drop (idx * width)).take width

/-- All rows of the selected tensor, in ascending index order
(`for (let idx = 0; idx < selected.dims[1]; idx++)`, line 56). -/
def tensorRows (data : List ℚ) (count width : ℕ) : List (List ℚ) :=
  (List.range count).map (tensorRow data width)

/-- `maxSize` as `detectImage` computes it (lines 31-32):
`Math.max(...inputShape.slice(2))`. -/
def detectMaxSize (inputShape : List ℕ) : ℕ :=
  max (inputShape.getD 2 0) (inputShape.getD 3 0)

/-- The NMS config tensor data (lines 36-44):
`[numClass, topk, iouThreshold, scoreThreshold]`, passed straight to
`session.nms.run`. -/
def nmsConfig (numClass : ℕ) (topk iouThreshold scoreThreshold : ℚ) : List ℚ :=
  [(numClass : ℚ), topk, iouThreshold, scoreThreshold]

/-- `detectImage` (lines 19-125) restricted to its pure data flow.  The
external collaborators are parameters: `selector` abstracts
`session.net.run` composed with `session.nms.run` and yields the selected
tensor as `(data, dims1, dims2)`; `maskGen` abstracts `session.mask.run`;
`xRatio`, `yRatio` are the preprocessing outputs.  Note the source performs
no validation of `inputShape`, `topk`, `iouThreshold` or `scoreThreshold`:
the model is total in them, as the code is. -/
def detectImage {α : Type} (numClass : ℕ) (inputShape : List ℕ)
    (topk iouThreshold scoreThreshold xRatio yRatio : ℚ)
    (selector : List ℚ → List ℚ × ℕ × ℕ)
    (maskGen : List ℚ → List ℚ → α → α) (overlay : α) : List Detection × α :=
  let sel := selector (nmsConfig numClass topk iouThreshold scoreThreshold)
  runRows numClass ((detectMaxSize inputShape : ℕ) : ℚ) xRatio yRatio maskGen
    (tensorRows sel.1 sel.2.1 sel.2.2) overlay

/-- One dimension of `divStride` (lines 176-186).  The JS comparison
`width % stride >= stride / 2` uses real division, hence the cast to ℚ. -/
def divStrideDim (stride d : ℕ) : ℕ :=
  if d % stride ≠ 0 then
    if ((d % stride : ℕ) : ℚ) ≥ (stride : ℚ) / 2 then (d / stride + 1) * stride
    else d / stride * stride
  else d

/-- `divStride` (lines 176-186): the source applies the identical block to
`width` and to `height`. -/
def divStride (stride width height : ℕ) : ℕ × ℕ :=
  (divStrideDim stride width, divStrideDim stride height)

/-- Stride rounding as the spec words it (§4.1 step 2): if the remainder
modulo `stride` is at least `stride / 2`, round up to the next multiple,
otherwise round down.  Separate from `divStrideDim` so their agreement is a
theorem. -/
def specStrideRound (stride d : ℕ) : ℕ :=
  if ((d % stride : ℕ) : ℚ) ≥ (stride : ℚ) / 2 then (d / stride + 1) * stride
  else d / stride * stride

/-- The letterboxed square side computed inside `preprocessing` (line 144):
`Math.max(matC3.rows, matC3.cols)` after the resize to the stride-rounded
dimensions `(w, h) = divStride(stride, cols, rows)`. -/
def preMaxSize (stride cols rows : ℕ) : ℕ :=
  max (divStride stride cols rows).2 (divStride stride cols rows).1

/-- The ratio computation of `preprocessing` (lines 140-148):
`xRatio = maxSize / cols` and `yRatio = maxSize / rows` on the stride-rounded
dimensions.  The source has no guard on the divisor; rational division
totalizes `q / 0` to `0` where JS yields `Infinity`, so statements about the
zero-divisor case speak about the divisor itself. -/
def preprocessingRatios (stride cols rows : ℕ) : ℚ × ℚ :=
  (((preMaxSize stride cols rows : ℕ) : ℚ) / (((divStride stride cols rows).1 : ℕ) : ℚ),
   ((preMaxSize stride cols rows : ℕ) : ℚ) / (((divStride stride cols rows).2 : ℕ) : ℚ))

/-- The decoder contract of claim C1, spec-side: the probability is the
maximum of the score slice, the label is the first index attaining it, and
the box is the recenter / clip / floor-upscale / clip composite written with
the spec wording of the clip. -/
def decoderSpec (numClass : ℕ) (maxSize xRatio yRatio : ℚ) (row : List ℚ) : Prop :=
  ((decodeRow numClass maxSize xRatio yRatio row).probability ∈ scoresOf numClass row
    ∧ ∀ q ∈ scoresOf numClass row, q ≤ (decodeRow numClass maxSize xRatio yRatio row).probability)
  ∧ (scoresOf numClass row).get? (decodeRow numClass maxSize xRatio yRatio row).label
      = some (decodeRow numClass maxSize xRatio yRatio row).probability
  ∧ (∀ j : ℕ, j < (decodeRow numClass maxSize xRatio yRatio row).label →
      (scoresOf numClass row).get? j ≠ some (decodeRow numClass maxSize xRatio yRatio row).probability)
  ∧ (decodeRow numClass maxSize xRatio yRatio row).bounding = decodeSpecBox maxSize xRatio yRatio row

/-- The `divStride` contract of claim C3: both dimensions divisible by the
stride, within strict distance `stride` of the input, and equal to the
spec-worded nearest-multiple rounding. -/
def strideSpec (stride width height : ℕ) : Prop :=
  (divStride stride width height).1 % stride = 0
  ∧ (divStride stride width height).2 % stride = 0
  ∧ (divStride stride width height).1 < width + stride
  ∧ width < (divStride stride width height).1 + stride
  ∧ (divStride stride width height).2 < height + stride
  ∧ height < (divStride stride width height).2 + stride
  ∧ (divStride stride width height).1 = specStrideRound stride width
  ∧ (divStride stride width height).2 = specStrideRound stride height

/-- The containment property of claim C5 for a clipped box: corner
coordinates in `[0, m]`, non-negative extents, and the far corner within
`m`. -/
def clipContainment (x y w h m : ℚ) : Prop :=
  0 ≤ (overflowBoxes (x, y, w, h) m).1
  ∧ (overflowBoxes (x, y, w, h) m).1 ≤ m
  ∧ 0 ≤ (overflowBoxes (x, y, w, h) m).2.1
  ∧ (overflowBoxes (x, y, w, h) m).2.1 ≤ m
  ∧ 0 ≤ (overflowBoxes (x, y, w, h) m).2.2.1
  ∧ 0 ≤ (overflowBoxes (x, y, w, h) m).2.2.2
  ∧ (overflowBoxes (x, y, w, h) m).1 + (overflowBoxes (x, y, w, h) m).2.2.1 ≤ m
  ∧ (overflowBoxes (x, y, w, h) m).2.1 + (overflowBoxes (x, y, w, h) m).2.2.2 ≤ m

/-- The width side of the zero-divisor situation of claim C10: the
stride-rounded width is `0` and the `xRatio` computation divides the square
side by that `0`. -/
def zeroDivisorAtWidth (stride cols rows : ℕ) : Prop :=
  (divStride stride cols rows).1 = 0
  ∧ (preprocessingRatios stride cols rows).1
      = ((preMaxSize stride cols rows : ℕ) : ℚ) / (0 : ℚ)

/-- The height side of the zero-divisor situation of claim C10: the
stride-rounded height is `0` and the `yRatio` computation divides the square
side by that `0`. -/
def zeroDivisorAtHeight (stride cols rows : ℕ) : Prop :=
  (divStride stride cols rows).2 = 0
  ∧ (preprocessingRatios stride cols rows).2
      = ((preMaxSize stride cols rows : ℕ) : ℚ) / (0 : ℚ)

/-- The initial accumulator is a lower bound of a `foldl max`. -/
theorem foldl_max_init_le (l : List ℚ) (a : ℚ) : a ≤ l.foldl max a := by
  induction l generalizing a with
  | nil => exact le_refl a
  | cons b t ih => exact le_trans (le_max_left a b) (ih (max a b))

/-- A `foldl max` is the accumulator or one of the list elements. -/
theorem foldl_max_mem (l : List ℚ) (a : ℚ) : l.foldl max a = a ∨ l.foldl max a ∈ l := by
  induction l generalizing a with
  | nil => exact Or.inl rfl
  | cons b t ih =>
    rcases ih (max a b) with h | h
    · rcases max_choice a b with hm | hm
      · exact Or.inl (by rw [List.foldl_cons, h, hm])
      · exact Or.inr (by rw [List.foldl_cons, h, hm]; exact List.mem_cons_self b t)
    · exact Or.inr (List.mem_cons_of_mem b h)

/-- Every list element is bounded by a `foldl max`. -/
theorem le_foldl_max (l : List ℚ) (a q : ℚ) (hq : q ∈ l) : q ≤ l.foldl max a := by
  induction l generalizing a with
  | nil => cases hq
  | cons b t ih =>
    rcases List.mem_cons.mp hq with rfl | h
    · exact le_trans (le_max_right a q) (foldl_max_init_le t (max a q))
    · exact ih (max a b) h

/-- On a nonempty list, `listMax` is a member and an upper bound. -/
theorem listMax_isMax (l : List ℚ) (h : l ≠ []) :
    listMax l ∈ l ∧ ∀ q ∈ l, q ≤ listMax l := by
  cases l with
  | nil => exact absurd rfl h
  | cons a t =>
    constructor
    · rcases foldl_max_mem t a with h1 | h1
      · show t.foldl max a ∈ a :: t
        rw [h1]; exact List.mem_cons_self a t
      · exact List.mem_cons_of_mem a h1
    · intro q hq
      rcases List.mem_cons.mp hq with rfl | h2
      · exact foldl_max_init_le t q
      · exact le_foldl_max t a q h2

/-- `indexOfQ` finds its element when the element occurs. -/
theorem indexOfQ_get (x : ℚ) (l : List ℚ) (h : x ∈ l) :
    l.get? (indexOfQ x l) = some x := by
  induction l with
  | nil => cases h
  | cons a t ih =>
    by_cases ha : a = x
    · simp [indexOfQ, ha]
    · have hx : x ∈ t := by
        rcases List.mem_cons.mp h with rfl | h2
        · exact absurd rfl ha
        · exact h2
      show (a :: t).get? (if a = x then 0 else indexOfQ x t + 1) = some x
      rw [if_neg ha, List.get?_cons_succ]
      exact ih hx

/-- No position strictly before `indexOfQ` holds the element. -/
theorem indexOfQ_first (x : ℚ) (l : List ℚ) (j : ℕ) (hj : j < indexOfQ x l) :
    l.get? j ≠ some x := by
  induction l generalizing j with
  | nil => simp
  | cons a t ih =>
    by_cases ha : a = x
    · simp [indexOfQ, ha] at hj
    · cases j with
      | zero => simpa using ha
      | succ k =>
        have hk : k < indexOfQ x t := by
          simp only [indexOfQ, ha, if_false] at hj
          omega
        simpa using ih k hk

/-- The clipped components satisfy the frame bounds, for every input box and
every bound. -/
theorem clip_le_bounds (x y w h m : ℚ) :
    0 ≤ (overflowBoxes (x, y, w, h) m).1 ∧ 0 ≤ (overflowBoxes (x, y, w, h) m).2.1
    ∧ (overflowBoxes (x, y, w, h) m).1 + (overflowBoxes (x, y, w, h) m).2.2.1 ≤ m
    ∧ (overflowBoxes (x, y, w, h) m).2.1 + (overflowBoxes (x, y, w, h) m).2.2.2 ≤ m := by
  simp only [overflowBoxes]
  refine ⟨?_, ?_, ?_, ?_⟩ <;> split_ifs <;>
    simp only [ge_iff_le, not_le] at * <;> linarith

/-- A box already satisfying the frame bounds is a fixed point of the clip. -/
theorem clip_of_bounded (x y w h m : ℚ) (hx : 0 ≤ x) (hy : 0 ≤ y)
    (hw : x + w ≤ m) (hh : y + h ≤ m) :
    overflowBoxes (x, y, w, h) m = (x, y, w, h) := by
  simp only [overflowBoxes]
  rw [if_pos hx, if_pos hy, if_pos hw, if_pos hh]

/-- `overflowBoxes` computes exactly the clamp-then-shrink formula of the
spec. -/
theorem overflowBoxes_eq_specClipBox (b : Box) (m : ℚ) :
    overflowBoxes b m = specClipBox b m := by
  rcases b with ⟨x, y, w, h⟩
  simp only [overflowBoxes, specClipBox]
  have e1 : (if x ≥ 0 then x else 0) = max x 0 := by
    rw [max_def]; split_ifs <;> linarith
  have e2 : (if y ≥ 0 then y else 0) = max y 0 := by
    rw [max_def]; split_ifs <;> linarith
  rw [e1, e2]
  have e3 : (if max x 0 + w ≤ m then w else m - max x 0) = min w (m - max x 0) := by
    rw [min_def]; split_ifs <;> linarith
  have e4 : (if max y 0 + h ≤ m then h else m - max y 0) = min h (m - max y 0) := by
    rw [min_def]; split_ifs <;> linarith
  rw [e3, e4]

/-- The detection list of the decode loop is the row-wise map of the
decoder. -/
theorem runRows_fst {α : Type} (numClass : ℕ) (maxSize xr yr : ℚ)
    (mg : List ℚ → List ℚ → α → α) (rows : List (List ℚ)) (ov : α) :
    (runRows numClass maxSize xr yr mg rows ov).1
      = rows.map (decodeRow numClass maxSize xr yr) := by
  induction rows generalizing ov with
  | nil => rfl
  | cons r t ih => simp [runRows, ih]

/-- The final overlay of the decode loop is the left fold of the
mask-generation calls over the rows. -/
theorem runRows_snd {α : Type} (numClass : ℕ) (maxSize xr yr : ℚ)
    (mg : List ℚ → List ℚ → α → α) (rows : List (List ℚ)) (ov : α) :
    (runRows numClass maxSize xr yr mg rows ov).2
      = rows.foldl
          (fun acc row =>
            mg (maskDetection numClass maxSize row) (maskConfig numClass maxSize xr yr row) acc)
          ov := by
  induction rows generalizing ov with
  | nil => rfl
  | cons r t ih => simp [runRows, ih]

/-- `divStrideDim` agrees with the spec-worded nearest-multiple rounding. -/
theorem divStrideDim_eq_spec (stride d : ℕ) (hs : 0 < stride) :
    divStrideDim stride d = specStrideRound stride d := by
  by_cases h0 : d % stride = 0
  · have hq : ¬ (((d % stride : ℕ) : ℚ) ≥ (stride : ℚ) / 2) := by
      rw [h0]
      push_cast
      intro hge
      have hpos : (0 : ℚ) < (stride : ℚ) := by exact_mod_cast hs
      linarith
    unfold divStrideDim specStrideRound
    rw [if_neg (not_not_intro h0), if_neg hq,
      Nat.div_mul_cancel (Nat.dvd_of_mod_eq_zero h0)]
  · unfold divStrideDim specStrideRound
    rw [if_pos h0]

/-- `divStrideDim` always returns a multiple of the stride. -/
theorem divStrideDim_mod (stride d : ℕ) : divStrideDim stride d % stride = 0 := by
  unfold divStrideDim
  split_ifs with h1 h2
  · exact Nat.mul_mod_left _ _
  · exact Nat.mul_mod_left _ _
  · exact not_not.mp h1

/-- `divStrideDim` moves a dimension by strictly less than one stride. -/
theorem divStrideDim_dist (stride d : ℕ) (hs : 0 < stride) :
    divStrideDim stride d < d + stride ∧ d < divStrideDim stride d + stride := by
  have hkey : stride * (d / stride) + d % stride = d := Nat.div_add_mod d stride
  have hlt : d % stride < stride := Nat.mod_lt d hs
  unfold divStrideDim
  split_ifs with h1 h2
  · have e1 : (d / stride + 1) * stride = stride * (d / stride) + stride := by ring
    have h0 : 0 < d % stride := Nat.pos_of_ne_zero h1
    constructor
    · rw [e1]; linarith
    · rw [e1]; linarith
  · have e1 : d / stride * stride = stride * (d / stride) := by ring
    have h0 : 0 ≤ d % stride := Nat.zero_le _
    constructor
    · rw [e1]; linarith
    · rw [e1]; linarith
  · constructor <;> linarith

/-- A positive dimension strictly below half the stride is rounded to `0`. -/
theorem divStrideDim_small (stride d : ℕ) (h1 : 0 < d) (h2 : 2 * d < stride) :
    divStrideDim stride d = 0 := by
  have hds : d < stride := by omega
  have hmod : d % stride = d := Nat.mod_eq_of_lt hds
  have hneg : ¬ (((d % stride : ℕ) : ℚ) ≥ (stride : ℚ) / 2) := by
    rw [hmod, ge_iff_le, div_le_iff₀ (by norm_num : (0 : ℚ) < 2)]
    intro hge
    have h2q : (2 : ℚ) * (d : ℚ) < (stride : ℚ) := by exact_mod_cast h2
    linarith
  unfold divStrideDim
  rw [if_pos (by omega : d % stride ≠ 0), if_neg hneg,
    Nat.div_eq_of_lt hds, Nat.zero_mul]

/-- Claim C1: for every selected-detection row with at least `4 + numClass`
elements, the decoder yields the maximum of the score slice as probability,
the first index attaining it as label, and the recenter / clip / floor-upscale
/ clip box of the spec formula; in particular the row
`[100, 100, 50, 50, 0.9, 0.1]` with two classes and unit ratios decodes to
label 0, probability `0.9`, box `[75, 75, 50, 50]`. -/
theorem detectionDecoder_correct (numClass : ℕ) (maxSize xRatio yRatio : ℚ)
    (row : List ℚ) (hc : 1 ≤ numClass) (hl : 4 + numClass ≤ row.length) :
    decoderSpec numClass maxSize xRatio yRatio row
    ∧ decodeRow 2 640 1 1 [100, 100, 50, 50, 9/10, 1/10]
        = (⟨0, 9/10, (75, 75, 50, 50)⟩ : Detection) := by
  constructor
  · have hlen : (scoresOf numClass row).length = numClass := by
      simp only [scoresOf, List.length_take, List.length_drop]
      omega
    have hne : scoresOf numClass row ≠ [] := List.length_pos.mp (by omega)
    obtain ⟨hmem, hub⟩ := listMax_isMax (scoresOf numClass row) hne
    refine ⟨⟨hmem, hub⟩, ?_, ?_, ?_⟩
    · exact indexOfQ_get _ _ hmem
    · intro j hj
      exact indexOfQ_first _ _ j hj
    · show decodeBox maxSize xRatio yRatio row = decodeSpecBox maxSize xRatio yRatio row
      unfold decodeBox decodeSpecBox
      rw [overflowBoxes_eq_specClipBox, overflowBoxes_eq_specClipBox]
  · norm_num [decodeRow, scoresOf, listMax, indexOfQ, decodeBox, recenterBox,
      scaleFloorBox, overflowBoxes, max_def, Detection.mk.injEq]

/-- Witness for C1 at the concrete row of the end-to-end scenario. -/
theorem detectionDecoder_correct_witness :
    (1 ≤ 2 ∧ 4 + 2 ≤ ([100, 100, 50, 50, 9/10, 1/10] : List ℚ).length)
    ∧ (decoderSpec 2 640 1 1 [100, 100, 50, 50, 9/10, 1/10]
       ∧ decodeRow 2 640 1 1 [100, 100, 50, 50, 9/10, 1/10]
           = (⟨0, 9/10, (75, 75, 50, 50)⟩ : Detection)) :=
  ⟨⟨by norm_num, by simp⟩,
    detectionDecoder_correct 2 640 1 1 [100, 100, 50, 50, 9/10, 1/10]
      (by norm_num) (by simp)⟩

/-- Claim C2: for every box and every bound `m`, the clipped box satisfies
`0 ≤ x`, `0 ≤ y`, `x + w ≤ m` and `y + h ≤ m`. -/
theorem overflowBoxes_within_bounds (x y w h m : ℚ) :
    0 ≤ (overflowBoxes (x, y, w, h) m).1 ∧ 0 ≤ (overflowBoxes (x, y, w, h) m).2.1
    ∧ (overflowBoxes (x, y, w, h) m).1 + (overflowBoxes (x, y, w, h) m).2.2.1 ≤ m
    ∧ (overflowBoxes (x, y, w, h) m).2.1 + (overflowBoxes (x, y, w, h) m).2.2.2 ≤ m :=
  clip_le_bounds x y w h m

/-- Claim C3: for every stride `s > 0`, both `divStride` dimensions are
divisible by `s`, move by strictly less than `s`, and follow the
remainder-at-least-half-rounds-up rule. -/
theorem divStride_rounding_correct (stride width height : ℕ) (hs : 0 < stride) :
    strideSpec stride width height := by
  obtain ⟨w1, w2⟩ := divStrideDim_dist stride width hs
  obtain ⟨h1, h2⟩ := divStrideDim_dist stride height hs
  exact ⟨divStrideDim_mod stride width, divStrideDim_mod stride height,
    w1, w2, h1, h2,
    divStrideDim_eq_spec stride width hs, divStrideDim_eq_spec stride height hs⟩

/-- Witness for C3 at stride 32 on an 800 by 600 image. -/
theorem divStride_rounding_correct_witness : 0 < 32 ∧ strideSpec 32 800 600 :=
  ⟨by norm_num, divStride_rounding_correct 32 800 600 (by norm_num)⟩

/-- Claim C4, amended: both clipping steps of the decode use one and the same
bound, namely `max(modelWidth, modelHeight)` from `inputShape` — not the
letterboxed square side of preprocessing. -/
theorem clip_bounds_same_value {α : Type} (numClass batch channels mw mh : ℕ)
    (topk iou st m xr yr : ℚ) (row : List ℚ)
    (selector : List ℚ → List ℚ × ℕ × ℕ) (mg : List ℚ → List ℚ → α → α) (ov : α) :
    detectMaxSize [batch, channels, mw, mh] = max mw mh
    ∧ decodeBox m xr yr row
        = overflowBoxes (scaleFloorBox xr yr (overflowBoxes (recenterBox row) m)) m
    ∧ detectImage numClass [batch, channels, mw, mh] topk iou st xr yr selector mg ov
        = runRows numClass ((max mw mh : ℕ) : ℚ) xr yr mg
            (tensorRows (selector (nmsConfig numClass topk iou st)).1
              (selector (nmsConfig numClass topk iou st)).2.1
              (selector (nmsConfig numClass topk iou st)).2.2) ov :=
  ⟨rfl, rfl, rfl⟩

/-- Counterexample to C4 as stated: for a 640 by 640 model input and an 800 by
600 source image at stride 32, the clip bound used by `detectImage` is 640
while the letterboxed square side of preprocessing is 800. -/
theorem clip_bound_ne_letterbox_side :
    detectMaxSize [1, 3, 640, 640] = 640 ∧ preMaxSize 32 800 600 = 800
    ∧ detectMaxSize [1, 3, 640, 640] ≠ preMaxSize 32 800 600 := by
  norm_num [detectMaxSize, preMaxSize, divStride, divStrideDim]

/-- Claim C5, amended: the clipped box lies fully inside the frame `[0, m]`
with non-negative extents, provided the input box has non-negative extents,
corner within the bound, and `0 ≤ m`. -/
theorem clipBox_containment (x y w h m : ℚ) (hm : 0 ≤ m) (hw : 0 ≤ w)
    (hh : 0 ≤ h) (hx : x ≤ m) (hy : y ≤ m) : clipContainment x y w h m := by
  unfold clipContainment
  simp only [overflowBoxes]
  refine ⟨?_, ?_, ?_, ?_, ?_, ?_, ?_, ?_⟩ <;> split_ifs <;> linarith

/-- Witness for C5 on a box with a negative corner that the clip pulls back
into the frame. -/
theorem clipBox_containment_witness :
    ((0:ℚ) ≤ 10 ∧ (0:ℚ) ≤ 7 ∧ (0:ℚ) ≤ 100 ∧ (-5:ℚ) ≤ 10 ∧ (3:ℚ) ≤ 10)
    ∧ clipContainment (-5) 3 7 100 10 :=
  ⟨⟨by norm_num, by norm_num, by norm_num, by norm_num, by norm_num⟩,
    clipBox_containment (-5) 3 7 100 10 (by norm_num) (by norm_num) (by norm_num)
      (by norm_num) (by norm_num)⟩

/-- Counterexample to C5 as stated: the clip can return a negative width,
both directly (`overflowBoxes([20,0,100,5], 10)` has width `-10`) and through
the full pipeline decode (a centered box `[100,100,50,50]` against bound 10
decodes to width `-65`). -/
theorem clipBox_negative_width :
    (overflowBoxes (20, 0, 100, 5) 10).2.2.1 < 0
    ∧ (decodeRow 2 10 1 1 [100, 100, 50, 50, 9/10, 1/10]).bounding.2.2.1 < 0 := by
  constructor
  · norm_num [overflowBoxes]
  · norm_num [decodeRow, scoresOf, listMax, indexOfQ, decodeBox, recenterBox,
      scaleFloorBox, overflowBoxes, max_def]

/-- Claim C6: decoding is order-preserving — on a selected tensor with
`count` rows the loop emits exactly `count` detections, the `n`-th decoded
from the `n`-th row, rows processed in ascending index order with the overlay
of each mask-generation call folded into the next. -/
theorem decode_order_preserving {α : Type} (numClass count width : ℕ)
    (maxSize xr yr : ℚ) (mg : List ℚ → List ℚ → α → α) (data : List ℚ) (ov : α) :
    ((runRows numClass maxSize xr yr mg (tensorRows data count width) ov).1).length = count
    ∧ (∀ n : ℕ,
        ((runRows numClass maxSize xr yr mg (tensorRows data count width) ov).1).get? n
          = if n < count then
              some (decodeRow numClass maxSize xr yr (tensorRow data width n))
            else none)
    ∧ (runRows numClass maxSize xr yr mg (tensorRows data count width) ov).2
        = (tensorRows data count width).foldl
            (fun acc row => mg (maskDetection numClass maxSize row)
              (maskConfig numClass maxSize xr yr row) acc) ov := by
  refine ⟨?_, ?_, runRows_snd numClass maxSize xr yr mg _ ov⟩
  · rw [runRows_fst]
    simp [tensorRows]
  · intro n
    rw [runRows_fst]
    by_cases hn : n < count
    · rw [if_pos hn, tensorRows, List.get?_map, List.get?_map, List.get?_range hn]
      rfl
    · rw [if_neg hn]
      refine List.get?_len_le ?_
      simp only [tensorRows, List.length_map, List.length_range]
      omega

/-- Claim C7: clipping is idempotent — reclipping an already clipped box
returns it unchanged. -/
theorem overflowBoxes_idempotent (x y w h m : ℚ) :
    overflowBoxes (overflowBoxes (x, y, w, h) m) m = overflowBoxes (x, y, w, h) m := by
  obtain ⟨h1, h2, h3, h4⟩ := clip_le_bounds x y w h m
  rcases hb : overflowBoxes (x, y, w, h) m with ⟨a, b, c, d⟩
  rw [hb] at h1 h2 h3 h4
  exact clip_of_bounded a b c d m h1 h2 h3 h4

/-- Claim C8, amended: the pipeline performs no validation of its caller
configuration — the raw `topk`, `iouThreshold`, `scoreThreshold` values are
passed verbatim to the selector config tensor and the decode runs on whatever
the selector returns, for every `inputShape` and every configuration. -/
theorem config_passthrough {α : Type} (numClass : ℕ) (inputShape : List ℕ)
    (topk iou st xr yr : ℚ) (selector : List ℚ → List ℚ × ℕ × ℕ)
    (mg : List ℚ → List ℚ → α → α) (ov : α) :
    nmsConfig numClass topk iou st = [(numClass : ℚ), topk, iou, st]
    ∧ ((detectImage numClass inputShape topk iou st xr yr selector mg ov).1).length
        = (selector (nmsConfig numClass topk iou st)).2.1 := by
  refine ⟨rfl, ?_⟩
  unfold detectImage
  rw [runRows_fst]
  simp [tensorRows]

/-- Counterexample to C8 as stated: with batch 2, `topk = 0`,
`iouThreshold = scoreThreshold = 3/2` — every entry bound violated — the
pipeline still runs and produces a decoded detection instead of rejecting the
configuration. -/
theorem no_entry_validation_counterexample :
    (detectImage 2 [2, 3, 640, 640] 0 (3/2) (3/2) 1 1
        (fun _ => ([100, 100, 50, 50, 9/10, 1/10], 1, 6)) (fun _ _ ov => ov) (0 : ℕ)).1
      = [(⟨0, 9/10, (75, 75, 50, 50)⟩ : Detection)] := by
  norm_num [detectImage, detectMaxSize, tensorRows, tensorRow, List.range_succ,
    runRows, decodeRow, scoresOf, listMax, indexOfQ, decodeBox, recenterBox,
    scaleFloorBox, overflowBoxes, max_def, Detection.mk.injEq]

/-- Claim C9, amended: a selected row narrower than `4 + numClass` is not
rejected — its score slice is silently truncated to fewer than `numClass`
entries and the loop still emits one detection per row. -/
theorem short_row_no_rejection {α : Type} (numClass width count : ℕ)
    (maxSize xr yr : ℚ) (mg : List ℚ → List ℚ → α → α) (data : List ℚ) (ov : α)
    (hc : 0 < numClass) (hshort : width < 4 + numClass) :
    ((runRows numClass maxSize xr yr mg (tensorRows data count width) ov).1).length = count
    ∧ ∀ row ∈ tensorRows data count width,
        (scoresOf numClass row).length < numClass := by
  constructor
  · rw [runRows_fst]
    simp [tensorRows]
  · intro row hrow
    rcases List.mem_map.mp hrow with ⟨i, _, hrow_eq⟩
    rw [← hrow_eq]
    simp only [scoresOf, tensorRow, List.length_take, List.length_drop]
    omega

/-- Witness for C9 on a one-row tensor of width 5 with two classes. -/
theorem short_row_no_rejection_witness :
    (0 < 2 ∧ 5 < 4 + 2)
    ∧ (((runRows 2 640 1 1 (fun _ _ ov => ov)
          (tensorRows [100, 100, 50, 50, 9/10] 1 5) (0 : ℕ)).1).length = 1
       ∧ ∀ row ∈ tensorRows [100, 100, 50, 50, 9/10] 1 5,
           (scoresOf 2 row).length < 2) :=
  ⟨⟨by norm_num, by norm_num⟩,
    @short_row_no_rejection ℕ 2 5 1 640 1 1 (fun _ _ ov => ov)
      [100, 100, 50, 50, 9/10] 0 (by norm_num) (by norm_num)⟩

/-- Counterexample to C9 as stated: a row of width 5 with two classes (so
fewer than `4 + 2` elements) raises no error — the pipeline, with a valid
configuration, still returns a detection list with one entry decoded from the
truncated row. -/
theorem short_row_decoded_counterexample :
    (detectImage 2 [1, 3, 640, 640] 100 (1/2) (1/4) 1 1
        (fun _ => ([100, 100, 50, 50, 9/10], 1, 5)) (fun _ _ ov => ov) (0 : ℕ)).1
      = [(⟨0, 9/10, (75, 75, 50, 50)⟩ : Detection)] := by
  norm_num [detectImage, detectMaxSize, tensorRows, tensorRow, List.range_succ,
    runRows, decodeRow, scoresOf, listMax, indexOfQ, decodeBox, recenterBox,
    scaleFloorBox, overflowBoxes, max_def, Detection.mk.injEq]

/-- Claim C10: every positive image dimension strictly below half the stride
is stride-rounded to 0, making the corresponding ratio computation of the
preprocessor an unguarded division by zero — a small width zeroes the
`xRatio` divisor and a small height zeroes the `yRatio` divisor. -/
theorem small_dims_zero_divisor (stride cols rows : ℕ) :
    (0 < cols → 2 * cols < stride → zeroDivisorAtWidth stride cols rows)
    ∧ (0 < rows → 2 * rows < stride → zeroDivisorAtHeight stride cols rows) := by
  constructor
  · intro h1 h2
    have hz : (divStride stride cols rows).1 = 0 := divStrideDim_small stride cols h1 h2
    refine ⟨hz, ?_⟩
    unfold preprocessingRatios
    rw [hz]
    norm_num
  · intro h1 h2
    have hz : (divStride stride cols rows).2 = 0 := divStrideDim_small stride rows h1 h2
    refine ⟨hz, ?_⟩
    unfold preprocessingRatios
    rw [hz]
    norm_num

/-- Witness for C10 at stride 32: a 15 pixel wide image zeroes the `xRatio`
divisor and a 15 pixel tall image zeroes the `yRatio` divisor. -/
theorem small_dims_zero_divisor_witness :
    zeroDivisorAtWidth 32 15 600 ∧ zeroDivisorAtHeight 32 600 15 :=
  ⟨(small_dims_zero_divisor 32 15 600).1 (by norm_num) (by norm_num),
   (small_dims_zero_divisor 32 600 15).2 (by norm_num) (by norm_num)⟩
